import Mathlib

/-!
Verification of the touch-zoom widget against its design document.

The repository carries two copies of the design: the current
implementation (an anonymous IIFE file, called `part_000` below) and the
earlier `zoom-1.0.7-beta.js`.  Both share the same vector/matrix/affine
algebra; the state machine and the constraint engine below follow the
current copy, and the earlier copy's event dispatch is embedded
separately where a claim refers to it.

Embedding conventions:
* JS numbers are embedded as rationals (exact arithmetic).
* A JS arithmetic step whose result is non-finite (a division by zero,
  which yields NaN or Infinity and poisons everything downstream) is
  embedded as `none` in an `Option`-valued function.
* `Math.sqrt` is embedded as an oracle `sq : Rat -> Rat`; theorems about
  the scale-only path carry hypotheses pinning the oracle to the exact
  nonnegative square root at the points where the code consults it.
* Reads of the browser environment (element offsets, viewport size,
  `requestAnimationFrame` availability, the boundary clamp's geometry)
  are fields of an `Env` record.
* The repaint callback is observed by logging the painted transform in
  the state; the asynchronous animation frames of `reset` are not run
  synchronously, only the synchronous effects of `reset` itself are.
-/

namespace ZoomJS

/-- A 2D vector, source type `Vector is [ x, y ]`. -/
abbrev Vec := ℚ × ℚ

/-- A 2x2 matrix as a pair of row vectors, source type `Matrix is [ Vector, Vector ]`. -/
abbrev Mat := Vec × Vec

/-- A pair of contact points (source and destination pairs of the gesture). -/
abbrev PointPair := Vec × Vec

/-- Source `scmult`: scalar times vector. -/
def scmult (l : ℚ) (x : Vec) : Vec := (l * x.1, l * x.2)

/-- Source `vcadd`: vector addition. -/
def vcadd (a b : Vec) : Vec := (a.1 + b.1, a.2 + b.2)

/-- Source `minus`: vector subtraction. -/
def minus (a b : Vec) : Vec := (a.1 - b.1, a.2 - b.2)

/-- Source `dot`: inner product. -/
def dot (a b : Vec) : ℚ := a.1 * b.1 + a.2 * b.2

/-- Source `wedge`: exterior product (pseudoscalar). -/
def wedge (a b : Vec) : ℚ := a.1 * b.2 - a.2 * b.1

/-- Source `apply`: apply matrix to vector, `x[0]*A[0] + x[1]*A[1]`. -/
def apply (A : Mat) (x : Vec) : Vec := vcadd (scmult x.1 A.1) (scmult x.2 A.2)

/-- Source `mult`: matrix product, `[ apply(A, B[0]), apply(A, B[1]) ]`. -/
def mult (A B : Mat) : Mat := (apply A B.1, apply A B.2)

/-- Source `Transform`: a transform operation `Ax + b`. -/
structure Transform where
  A : Mat
  b : Vec
deriving DecidableEq

/-- Source `cascade`: transform composition, `(T o U)(x) = T(U(x))`. -/
def cascade (T U : Transform) : Transform :=
  Transform.mk (mult T.A U.A) (vcadd (apply T.A U.b) T.b)

/-- Source `rotate`: the rotation-scale matrix `[[c, s], [-s, c]]`. -/
def rotate (c s : ℚ) : Mat := ((c, s), (-s, c))

/-- Source `rotscale`: matrix taking vector `a` to vector `b`.  The two
divisions by `dot a a` are non-finite in JS exactly when `dot a a = 0`,
embedded as `none`. -/
def rotscale (a b : Vec) : Option Mat :=
  if dot a a = 0 then none
  else some (rotate (dot a b / dot a a) (wedge a b / dot a a))

/-- Source `justscale`: uniform scale by `|b| / |a|`, with `Math.sqrt`
supplied as the oracle `sq`.  The division is non-finite in JS exactly
when `alen = 0`, embedded as `none`. -/
def justscale (sq : ℚ → ℚ) (a b : Vec) : Option Mat :=
  if sq (dot a a) = 0 then none
  else some (rotate (sq (dot b b) / sq (dot a a)) 0)

/-- Source `zoom`: the gesture resolver, from a source pair and a
destination pair to the incremental transform. -/
def zoom (sq : ℚ → ℚ) (s d : PointPair) (rot : Bool) : Option Transform :=
  (match rot with
   | true => rotscale (minus s.2 s.1) (minus d.2 d.1)
   | false => justscale sq (minus s.2 s.1) (minus d.2 d.1)).map
    (fun rs => Transform.mk rs (minus d.1 (apply rs s.1)))

/-- Source `avgVector`: weighted average `(1-p)u + pv`. -/
def avgVector (u v : Vec) (progress : ℚ) : Vec :=
  vcadd (scmult (1 - progress) u) (scmult progress v)

/-- Source `avgMatrix`: rowwise weighted average of two matrices. -/
def avgMatrix (A B : Mat) (progress : ℚ) : Mat :=
  (avgVector A.1 B.1 progress, avgVector A.2 B.2 progress)

/-- Source `Transform.avg`: weighted average of two transforms. -/
def Transform.avg (Z I : Transform) (progress : ℚ) : Transform :=
  Transform.mk (avgMatrix Z.A I.A progress) (avgVector Z.b I.b progress)

/-- Source `identity`: the identity transform. -/
def identity : Transform := Transform.mk ((1, 0), (0, 1)) (0, 0)

/-- The point map denoted by a transform, per the source doc comment
`Represents a transform operation, Ax + b`. -/
def applyT (T : Transform) (x : Vec) : Vec := vcadd (apply T.A x) T.b

/-- A square-root oracle used by the concrete witnesses: exact on the
inner products they touch. -/
def sqOracle : ℚ → ℚ := fun x => if x = 100 then 10 else if x = 400 then 20 else 0

/-- A touch contact carrying page coordinates. -/
structure Touch where
  pageX : ℚ
  pageY : ℚ
deriving DecidableEq

/-- The widget configuration after `default_config` merged in the
defaults (`pan` false, `rotate` true, `minScale` null, `maxScale` null;
`boundaries` is absent from the defaults, so it is only true when passed
as `true`). `none` stands for null/undefined. -/
structure Config where
  pan : Bool
  rotate : Bool
  minScale : Option ℚ
  maxScale : Option ℚ
  boundaries : Bool
deriving DecidableEq

/-- The source's default configuration literal. -/
def defaultConfig : Config :=
  { pan := false, rotate := true, minScale := none, maxScale := none,
    boundaries := false }

/-- The browser environment the widget reads: whether
`requestAnimationFrame` exists, `Math.sqrt`, the element offsets used by
`getCoords`, the translation clamp of `checkBoundaries` (which depends on
viewport and element geometry and only ever replaces the `b` component),
and the viewport-centering offsets of the double-tap reset target. -/
structure Env where
  hasRAF : Bool
  sq : ℚ → ℚ
  offsetLeft : ℚ
  offsetTop : ℚ
  clampB : Transform → Vec
  middleX : ℚ
  middleY : ℚ

/-- The mutable per-instance state of `Zoom`: the double-tap timer
(`mayBeDoubleTap`, pending or not), the animation reentrancy flag, the
recorded contact count `curTouch`, the committed and displayed
transforms, the target captured for a scheduled reset animation, the
captured coordinate pairs, and the log of transforms handed to the
repaint callback (the observable output). -/
structure ZoomState where
  mayBeDoubleTap : Bool
  isAnimationRunning : Bool
  curTouch : Nat
  activeZoom : Transform
  resultantZoom : Transform
  animTarget : Transform
  srcCoords : PointPair
  destCoords : PointPair
  painted : List Transform
deriving DecidableEq

/-- JS truthiness of a numeric config entry: null/undefined and 0 are
falsy (`if (minScale)`, `if (maxScale && ...)`). -/
def truthy : Option ℚ → Option ℚ
  | none => none
  | some v => if v = 0 then none else some v

/-- Source `getCoordsDouble`: first two contacts offset by the element
origin. -/
def getCoordsDouble (env : Env) (t : List Touch) : PointPair :=
  (((t.getD 0 ⟨0, 0⟩).pageX - env.offsetLeft, (t.getD 0 ⟨0, 0⟩).pageY - env.offsetTop),
   ((t.getD 1 ⟨0, 0⟩).pageX - env.offsetLeft, (t.getD 1 ⟨0, 0⟩).pageY - env.offsetTop))

/-- Source `getCoordsSingle`: one contact plus a synthetic second point at
`(x+1, y+1)`. -/
def getCoordsSingle (env : Env) (t : List Touch) : PointPair :=
  ((((t.getD 0 ⟨0, 0⟩).pageX - env.offsetLeft), ((t.getD 0 ⟨0, 0⟩).pageY - env.offsetTop)),
   (((t.getD 0 ⟨0, 0⟩).pageX - env.offsetLeft) + 1, ((t.getD 0 ⟨0, 0⟩).pageY - env.offsetTop) + 1))

/-- Source `getCoords`: double extraction when more than one contact. -/
def getCoords (env : Env) (t : List Touch) : PointPair :=
  if 1 < t.length then getCoordsDouble env t else getCoordsSingle env t

/-- Source `setSrcAndDest`. -/
def setSrcAndDest (env : Env) (t : List Touch) (st : ZoomState) : ZoomState :=
  { st with srcCoords := getCoords env t, destCoords := getCoords env t }

/-- Source `setDest`. -/
def setDest (env : Env) (t : List Touch) (st : ZoomState) : ZoomState :=
  { st with destCoords := getCoords env t }

/-- Source `Zoom.prototype.finalize`: commit the displayed transform. -/
def finalize (st : ZoomState) : ZoomState :=
  { st with activeZoom := st.resultantZoom }

/-- Source `Zoom.prototype.repaint`: hand the displayed transform to the
environment; observed here by logging it. -/
def repaint (st : ZoomState) : ZoomState :=
  { st with painted := st.painted ++ [st.resultantZoom] }

/-- Source `Zoom.prototype.setZoom`. -/
def setZoom (newZoom : Transform) (st : ZoomState) : ZoomState :=
  repaint { st with resultantZoom := newZoom }

/-- The reset target `newIdentity` as computed inside `reset`: plain
identity, except for the double-tap-to-zoom case (truthy `maxScale`, not
forced to the original identity, active transform at rest) where it is
the viewport-centered `maxScale` transform. -/
def resetTarget (env : Env) (cfg : Config) (useOriginalIdentity : Bool)
    (st : ZoomState) : Transform :=
  match truthy cfg.maxScale with
  | none => identity
  | some m =>
      if useOriginalIdentity = false ∧ st.activeZoom.A.1.1 = 1 ∧ st.activeZoom.A.2.2 = 1 then
        Transform.mk ((m, 0), (0, m)) (env.middleX, env.middleY)
      else identity

/-- Source `Zoom.prototype.reset`, synchronous part: with a frame
scheduler it raises the reentrancy flag and captures the animation
target (the scheduled frames run later); without one it applies the
identity immediately. -/
def reset (env : Env) (cfg : Config) (useOriginalIdentity : Bool)
    (st : ZoomState) : ZoomState :=
  if env.hasRAF then
    { st with isAnimationRunning := true,
              animTarget := resetTarget env cfg useOriginalIdentity st }
  else setZoom identity st

/-- The `minScale` branch condition of `checkPan`. -/
def minFires (cfg : Config) (rz : Transform) : Bool :=
  match truthy cfg.minScale with
  | none => false
  | some m => decide (rz.A.1.1 ≤ m ∧ rz.A.2.2 ≤ m)

/-- The `maxScale` branch condition of `checkPan`. -/
def maxFires (cfg : Config) (rz : Transform) : Bool :=
  match truthy cfg.maxScale with
  | none => false
  | some m => decide (m < rz.A.1.1 ∧ m < rz.A.2.2)

/-- Source `Zoom.prototype.checkPan`: returns `proceed` and the state
after the side effects of the `minScale` branch (finalize plus forced
reset). -/
def checkPan (env : Env) (cfg : Config) (resultantZoom : Transform)
    (st : ZoomState) : Bool × ZoomState :=
  ((!minFires cfg resultantZoom) && (!maxFires cfg resultantZoom),
   if minFires cfg resultantZoom then reset env cfg true (finalize st) else st)

/-- Source `Zoom.prototype.checkBoundaries`: inert unless `boundaries` is
true, in which case only the translation component is replaced by the
environment-dependent clamp. -/
def checkBoundaries (env : Env) (cfg : Config) (resultantZoom : Transform) : Transform :=
  if cfg.boundaries then Transform.mk resultantZoom.A (env.clampB resultantZoom)
  else resultantZoom

/-- Source `Zoom.prototype.previewZoom`: resolve the incremental
transform, compose it over the active one, consult `checkPan`, clamp
boundaries, display.  `none` records NaN poisoning from a degenerate
resolver input. -/
def previewZoom (env : Env) (cfg : Config) (st : ZoomState) : Option ZoomState :=
  (zoom env.sq st.srcCoords st.destCoords cfg.rotate).map (fun additionalZoom =>
    let resultantZoom := cascade additionalZoom st.activeZoom
    let pr := checkPan env cfg resultantZoom st
    if pr.1 then setZoom (checkBoundaries env cfg resultantZoom) pr.2
    else pr.2)

/-- Source `handleZoom` behind `handleTouchEvent`: ignore while the
animation runs or when the event has no touch list; on a contact-count
change record the count, finalize and (when nonzero) recapture both
coordinate pairs; on a same-nonzero-count event capture the destination
and run the preview pipeline. -/
def handleZoom (env : Env) (cfg : Config) (touches : Option (List Touch))
    (st : ZoomState) : Option ZoomState :=
  if st.isAnimationRunning then some st
  else
    match touches with
    | none => some st
    | some t =>
        if t.length ≠ st.curTouch then
          let st1 := finalize { st with curTouch := t.length }
          some (if t.length ≠ 0 then setSrcAndDest env t st1 else st1)
        else if t.length ≠ 0 then previewZoom env cfg (setDest env t st)
        else some st

/-- Source `handleTouchStart` behind `handleTouchEvent`: the double-tap
detector; a single-contact start either consumes a pending tap (reset)
or arms the 300ms timer. -/
def handleTouchStart (env : Env) (cfg : Config) (touches : Option (List Touch))
    (st : ZoomState) : ZoomState :=
  if st.isAnimationRunning then st
  else
    match touches with
    | none => st
    | some t =>
        if t.length = 1 then
          if st.mayBeDoubleTap then
            { reset env cfg false st with mayBeDoubleTap := false }
          else { st with mayBeDoubleTap := true }
        else st

/-- The earlier `zoom-1.0.7-beta.js` listener dispatch: each listener
switches on the touch count and invokes a handler only for counts 1 and
2; any other count falls to `default: return false` with no handler
call, hence no state change.  The per-count handlers are abstracted as
parameters since only the switch structure matters. -/
def dispatchOld {σ : Type} (h1 h2 : σ → σ × Bool) (n : Nat) (st : σ) : σ × Bool :=
  if n = 1 then h1 st else if n = 2 then h2 st else (st, false)

/-- A concrete environment for witnesses: frame scheduler present, the
witness square-root oracle, zero element offsets, an inert clamp. -/
def env0 : Env :=
  { hasRAF := true, sq := sqOracle, offsetLeft := 0, offsetTop := 0,
    clampB := fun T => T.b, middleX := 0, middleY := 0 }

/-- A concrete resting state for witnesses: the constructor's initial
flags and transforms. -/
def st0 : ZoomState :=
  { mayBeDoubleTap := false, isAnimationRunning := false, curTouch := 0,
    activeZoom := identity, resultantZoom := identity, animTarget := identity,
    srcCoords := ((0, 0), (0, 0)), destCoords := ((0, 0), (0, 0)), painted := [] }

/-- Configuration with `maxScale: 0` (falsy in JS), for the C3
counterexample. -/
def cfgZ3 : Config :=
  { pan := false, rotate := true, minScale := none, maxScale := some 0,
    boundaries := false }

/-- State holding a pinch that doubles the scale, for the C3
counterexample. -/
def stZ3 : ZoomState :=
  { st0 with srcCoords := (((0 : ℚ), (0 : ℚ)), ((1 : ℚ), (0 : ℚ))),
             destCoords := (((0 : ℚ), (0 : ℚ)), ((2 : ℚ), (0 : ℚ))) }

/-- The state the C3 counterexample's preview actually produces. -/
def outZ3 : ZoomState := setZoom (Transform.mk ((2, 0), (0, 2)) (0, 0)) stZ3

/-- Configuration with `minScale: 0` (falsy in JS), for the C6
counterexample. -/
def cfgZ6 : Config :=
  { pan := false, rotate := true, minScale := some 0, maxScale := none,
    boundaries := false }

/-- State holding a gesture that rotates by 180 degrees (negative
diagonals), for the C6 counterexample. -/
def stZ6 : ZoomState :=
  { st0 with srcCoords := (((0 : ℚ), (0 : ℚ)), ((1 : ℚ), (0 : ℚ))),
             destCoords := (((0 : ℚ), (0 : ℚ)), ((-1 : ℚ), (0 : ℚ))) }

/-- The state the C6 counterexample's preview actually produces. -/
def outZ6 : ZoomState := setZoom (Transform.mk ((-1, 0), (0, -1)) (0, 0)) stZ6

/-- A configuration with `maxScale: 2`, for the C3 witness. -/
def cfgC3 : Config :=
  { pan := false, rotate := true, minScale := none, maxScale := some 2,
    boundaries := false }

/-- State holding a pinch that quadruples the scale, for the C3 witness. -/
def stC3 : ZoomState :=
  { st0 with srcCoords := (((0 : ℚ), (0 : ℚ)), ((1 : ℚ), (0 : ℚ))),
             destCoords := (((0 : ℚ), (0 : ℚ)), ((4 : ℚ), (0 : ℚ))) }

/-- State holding a single-finger pan (synthetic second points), for the
C3 witness. -/
def stC3pan : ZoomState :=
  { st0 with srcCoords := (((1 : ℚ), (1 : ℚ)), ((2 : ℚ), (2 : ℚ))),
             destCoords := (((5 : ℚ), (3 : ℚ)), ((6 : ℚ), (4 : ℚ))) }

/-- A configuration with `minScale: 1/2`, for the C6 witness. -/
def cfgC6 : Config :=
  { pan := false, rotate := true, minScale := some (1 / 2), maxScale := none,
    boundaries := false }

/-- State holding a pinch that halves the scale, for the C6 witness. -/
def stC6 : ZoomState :=
  { st0 with srcCoords := (((0 : ℚ), (0 : ℚ)), ((2 : ℚ), (0 : ℚ))),
             destCoords := (((0 : ℚ), (0 : ℚ)), ((1 : ℚ), (0 : ℚ))) }

/-- A three-contact touch list, for C9. -/
def t3 : List Touch := [⟨1, 1⟩, ⟨2, 2⟩, ⟨3, 3⟩]

/-- A mid-pinch state with an uncommitted preview, for C9. -/
def stZ9 : ZoomState :=
  { st0 with curTouch := 2, resultantZoom := Transform.mk ((2, 0), (0, 2)) (1, 1) }

/-- The state the C9 counterexample's three-contact event actually
produces. -/
def outZ9 : ZoomState :=
  { stZ9 with curTouch := 3, activeZoom := Transform.mk ((2, 0), (0, 2)) (1, 1),
              srcCoords := (((1 : ℚ), (1 : ℚ)), ((2 : ℚ), (2 : ℚ))),
              destCoords := (((1 : ℚ), (1 : ℚ)), ((2 : ℚ), (2 : ℚ))) }

/-- State whose contacts have not moved, for the C10 witness. -/
def stC10 : ZoomState :=
  { st0 with srcCoords := (((1 : ℚ), (2 : ℚ)), ((3 : ℚ), (4 : ℚ))),
             destCoords := (((1 : ℚ), (2 : ℚ)), ((3 : ℚ), (4 : ℚ))) }

/-- Over the rationals a self inner product vanishes only on the zero
vector, so a distinct point pair yields a nonzero denominator. -/
lemma dot_self_ne_zero (v : Vec) (h : v ≠ ((0 : ℚ), (0 : ℚ))) : dot v v ≠ 0 := by
  obtain ⟨x, y⟩ := v
  intro h0
  simp only [dot] at h0
  have hx : x * x = 0 := by nlinarith [mul_self_nonneg x, mul_self_nonneg y]
  have hy : y * y = 0 := by nlinarith [mul_self_nonneg x, mul_self_nonneg y]
  exact h (by simp [mul_self_eq_zero.mp hx, mul_self_eq_zero.mp hy])

/-- Applying a matrix is linear in the vector argument, which gives
associativity of `mult` and `cascade`. -/
lemma apply_mult (A B : Mat) (x : Vec) :
    apply (mult A B) x = apply A (apply B x) := by
  obtain ⟨⟨a1, a2⟩, ⟨a3, a4⟩⟩ := A
  obtain ⟨⟨b1, b2⟩, ⟨b3, b4⟩⟩ := B
  obtain ⟨x1, x2⟩ := x
  simp only [mult, apply, vcadd, scmult, Prod.mk.injEq]
  constructor <;> ring

/-- The identity matrix acts as the identity map. -/
lemma apply_identity (x : Vec) : apply identity.A x = x := by
  obtain ⟨x1, x2⟩ := x
  simp only [identity, apply, vcadd, scmult, Prod.mk.injEq]
  constructor <;> ring

/-- Composing with the identity transform on the left is the identity. -/
lemma cascade_identity_left (T : Transform) : cascade identity T = T := by
  obtain ⟨⟨⟨a1, a2⟩, ⟨a3, a4⟩⟩, ⟨b1, b2⟩⟩ := T
  simp only [cascade, identity, mult, apply, vcadd, scmult, Transform.mk.injEq,
    Prod.mk.injEq]
  refine ⟨⟨⟨?_, ?_⟩, ?_, ?_⟩, ?_, ?_⟩ <;> ring

/-- Composing with the identity transform on the right is the identity. -/
lemma cascade_identity_right (T : Transform) : cascade T identity = T := by
  obtain ⟨⟨⟨a1, a2⟩, ⟨a3, a4⟩⟩, ⟨b1, b2⟩⟩ := T
  simp only [cascade, identity, mult, apply, vcadd, scmult, Transform.mk.injEq,
    Prod.mk.injEq]
  refine ⟨⟨⟨?_, ?_⟩, ?_, ?_⟩, ?_, ?_⟩ <;> ring

/-- C2: transform composition is associative, and the identity transform
is a two-sided unit for it. -/
theorem c2_cascade_assoc_identity (T U V : Transform) :
    cascade (cascade T U) V = cascade T (cascade U V) ∧
    cascade identity T = T ∧ cascade T identity = T := by
  refine ⟨?_, cascade_identity_left T, cascade_identity_right T⟩
  obtain ⟨⟨⟨a1, a2⟩, ⟨a3, a4⟩⟩, ⟨b1, b2⟩⟩ := T
  obtain ⟨⟨⟨c1, c2⟩, ⟨c3, c4⟩⟩, ⟨d1, d2⟩⟩ := U
  obtain ⟨⟨⟨e1, e2⟩, ⟨e3, e4⟩⟩, ⟨f1, f2⟩⟩ := V
  simp only [cascade, mult, apply, vcadd, scmult, Transform.mk.injEq, Prod.mk.injEq]
  refine ⟨⟨⟨?_, ?_⟩, ?_, ?_⟩, ?_, ?_⟩ <;> ring

/-- C8: `Transform.avg` is the componentwise linear blend `(1-p)Z + pI`
of matrix and translation, and it is exact at the endpoints `p = 0` and
`p = 1`. -/
theorem c8_avg_linear (Z I : Transform) (p : ℚ) :
    (Transform.avg Z I p).A.1.1 = (1 - p) * Z.A.1.1 + p * I.A.1.1 ∧
    (Transform.avg Z I p).A.1.2 = (1 - p) * Z.A.1.2 + p * I.A.1.2 ∧
    (Transform.avg Z I p).A.2.1 = (1 - p) * Z.A.2.1 + p * I.A.2.1 ∧
    (Transform.avg Z I p).A.2.2 = (1 - p) * Z.A.2.2 + p * I.A.2.2 ∧
    (Transform.avg Z I p).b.1 = (1 - p) * Z.b.1 + p * I.b.1 ∧
    (Transform.avg Z I p).b.2 = (1 - p) * Z.b.2 + p * I.b.2 ∧
    Transform.avg Z I 0 = Z ∧ Transform.avg Z I 1 = I := by
  obtain ⟨⟨⟨a1, a2⟩, ⟨a3, a4⟩⟩, ⟨b1, b2⟩⟩ := Z
  obtain ⟨⟨⟨c1, c2⟩, ⟨c3, c4⟩⟩, ⟨d1, d2⟩⟩ := I
  simp only [Transform.avg, avgMatrix, avgVector, vcadd, scmult, Transform.mk.injEq,
    Prod.mk.injEq]
  refine ⟨by ring, by ring, by ring, by ring, by ring, by ring,
    ⟨⟨⟨?_, ?_⟩, ?_, ?_⟩, ?_, ?_⟩, ⟨⟨?_, ?_⟩, ?_, ?_⟩, ?_, ?_⟩ <;> ring

/-- C1: with `rotate = true` and a nonzero source vector, the resolver
returns exactly the transform whose matrix is
`rotate (dot a b / dot a a) (wedge a b / dot a a)` and whose translation
is `d0 - R s0`, and this transform maps `s0` to `d0` and `s1` to `d1`
exactly. -/
theorem c1_zoom_rotate_maps_pairs (sq : ℚ → ℚ) (s0 s1 d0 d1 : Vec)
    (h : minus s1 s0 ≠ ((0 : ℚ), (0 : ℚ))) :
    zoom sq (s0, s1) (d0, d1) true =
      some (Transform.mk
        (rotate (dot (minus s1 s0) (minus d1 d0) / dot (minus s1 s0) (minus s1 s0))
          (wedge (minus s1 s0) (minus d1 d0) / dot (minus s1 s0) (minus s1 s0)))
        (minus d0
          (apply
            (rotate (dot (minus s1 s0) (minus d1 d0) / dot (minus s1 s0) (minus s1 s0))
              (wedge (minus s1 s0) (minus d1 d0) / dot (minus s1 s0) (minus s1 s0)))
            s0))) ∧
    ∀ T, zoom sq (s0, s1) (d0, d1) true = some T →
      applyT T s0 = d0 ∧ applyT T s1 = d1 := by
  have ha : dot (minus s1 s0) (minus s1 s0) ≠ 0 := dot_self_ne_zero _ h
  have hz : zoom sq (s0, s1) (d0, d1) true =
      some (Transform.mk
        (rotate (dot (minus s1 s0) (minus d1 d0) / dot (minus s1 s0) (minus s1 s0))
          (wedge (minus s1 s0) (minus d1 d0) / dot (minus s1 s0) (minus s1 s0)))
        (minus d0
          (apply
            (rotate (dot (minus s1 s0) (minus d1 d0) / dot (minus s1 s0) (minus s1 s0))
              (wedge (minus s1 s0) (minus d1 d0) / dot (minus s1 s0) (minus s1 s0)))
            s0))) := by
    simp [zoom, rotscale, ha]
  refine ⟨hz, ?_⟩
  intro T hT
  rw [hz] at hT
  obtain rfl : T = _ := (Option.some.injEq _ _).mp hT.symm
  obtain ⟨sx0, sy0⟩ := s0
  obtain ⟨sx1, sy1⟩ := s1
  obtain ⟨dx0, dy0⟩ := d0
  obtain ⟨dx1, dy1⟩ := d1
  simp only [minus, dot, wedge] at ha
  constructor
  · simp only [applyT, apply, rotate, vcadd, scmult, minus, dot, wedge, Prod.mk.injEq]
    constructor <;> ring
  · simp only [applyT, apply, rotate, vcadd, scmult, minus, dot, wedge, Prod.mk.injEq]
    constructor <;> (field_simp; ring)

/-- Witness for C1 at the design document's round-trip example:
`s0 = (0,0)`, `s1 = (10,0)`, `d0 = (5,5)`, `d1 = (25,5)` resolve to the
pure scale-2 transform with translation `(5,5)`. -/
theorem c1_witness :
    zoom (fun _ => 0) (((0 : ℚ), (0 : ℚ)), ((10 : ℚ), (0 : ℚ)))
        (((5 : ℚ), (5 : ℚ)), ((25 : ℚ), (5 : ℚ))) true =
      some (Transform.mk ((2, 0), (0, 2)) (5, 5)) ∧
    applyT (Transform.mk ((2, 0), (0, 2)) (5, 5)) ((0 : ℚ), (0 : ℚ)) = (5, 5) ∧
    applyT (Transform.mk ((2, 0), (0, 2)) (5, 5)) ((10 : ℚ), (0 : ℚ)) = (25, 5) := by
  have h := c1_zoom_rotate_maps_pairs (fun _ => 0)
    ((0 : ℚ), (0 : ℚ)) ((10 : ℚ), (0 : ℚ)) ((5 : ℚ), (5 : ℚ)) ((25 : ℚ), (5 : ℚ))
    (by norm_num [minus, Prod.ext_iff])
  have hz : zoom (fun _ => 0) (((0 : ℚ), (0 : ℚ)), ((10 : ℚ), (0 : ℚ)))
      (((5 : ℚ), (5 : ℚ)), ((25 : ℚ), (5 : ℚ))) true =
      some (Transform.mk ((2, 0), (0, 2)) (5, 5)) := by
    rw [h.1]
    norm_num [rotate, dot, wedge, minus, apply, vcadd, scmult, Prod.ext_iff]
  exact ⟨hz, h.2 _ hz⟩

/-- C7: with `rotate = false`, for a nonzero source vector and an exact
square-root oracle, the resolver's matrix has zero off-diagonal entries
and both diagonal entries equal to the ratio of Euclidean norms
`|b| / |a|` (characterized exactly: the diagonal is nonnegative and its
square times `dot a a` is `dot b b`); no rotation component appears. -/
theorem c7_justscale_uniform (sq : ℚ → ℚ) (s0 s1 d0 d1 : Vec)
    (h : minus s1 s0 ≠ ((0 : ℚ), (0 : ℚ)))
    (haNonneg : 0 ≤ sq (dot (minus s1 s0) (minus s1 s0)))
    (haSq : sq (dot (minus s1 s0) (minus s1 s0)) *
        sq (dot (minus s1 s0) (minus s1 s0)) = dot (minus s1 s0) (minus s1 s0))
    (hbNonneg : 0 ≤ sq (dot (minus d1 d0) (minus d1 d0)))
    (hbSq : sq (dot (minus d1 d0) (minus d1 d0)) *
        sq (dot (minus d1 d0) (minus d1 d0)) = dot (minus d1 d0) (minus d1 d0)) :
    zoom sq (s0, s1) (d0, d1) false =
      some (Transform.mk
        (rotate (sq (dot (minus d1 d0) (minus d1 d0)) /
          sq (dot (minus s1 s0) (minus s1 s0))) 0)
        (minus d0
          (apply (rotate (sq (dot (minus d1 d0) (minus d1 d0)) /
            sq (dot (minus s1 s0) (minus s1 s0))) 0) s0))) ∧
    ∀ T, zoom sq (s0, s1) (d0, d1) false = some T →
      T.A.1.2 = 0 ∧ T.A.2.1 = 0 ∧ T.A.1.1 = T.A.2.2 ∧ 0 ≤ T.A.1.1 ∧
      T.A.1.1 * T.A.1.1 * dot (minus s1 s0) (minus s1 s0) =
        dot (minus d1 d0) (minus d1 d0) := by
  have hdot : dot (minus s1 s0) (minus s1 s0) ≠ 0 := dot_self_ne_zero _ h
  have hsa : sq (dot (minus s1 s0) (minus s1 s0)) ≠ 0 := by
    intro h0
    rw [h0, mul_zero] at haSq
    exact hdot haSq.symm
  have hz : zoom sq (s0, s1) (d0, d1) false =
      some (Transform.mk
        (rotate (sq (dot (minus d1 d0) (minus d1 d0)) /
          sq (dot (minus s1 s0) (minus s1 s0))) 0)
        (minus d0
          (apply (rotate (sq (dot (minus d1 d0) (minus d1 d0)) /
            sq (dot (minus s1 s0) (minus s1 s0))) 0) s0))) := by
    simp [zoom, justscale, hsa]
  refine ⟨hz, ?_⟩
  intro T hT
  rw [hz] at hT
  obtain rfl : T = _ := (Option.some.injEq _ _).mp hT.symm
  refine ⟨rfl, by simp [rotate], rfl, ?_, ?_⟩
  · exact div_nonneg hbNonneg haNonneg
  · show sq (dot (minus d1 d0) (minus d1 d0)) / sq (dot (minus s1 s0) (minus s1 s0)) *
      (sq (dot (minus d1 d0) (minus d1 d0)) / sq (dot (minus s1 s0) (minus s1 s0))) *
      dot (minus s1 s0) (minus s1 s0) = dot (minus d1 d0) (minus d1 d0)
    have key : ∀ sa sb : ℚ, sa ≠ 0 →
        sa * sa = dot (minus s1 s0) (minus s1 s0) →
        sb * sb = dot (minus d1 d0) (minus d1 d0) →
        sb / sa * (sb / sa) * dot (minus s1 s0) (minus s1 s0) =
          dot (minus d1 d0) (minus d1 d0) := by
      intro sa sb h1 h2 h3
      rw [← h2, ← h3]
      field_simp
    exact key _ _ hsa haSq hbSq

/-- Witness for C7 at the design document's scale-only example:
`s0 = (0,0)`, `s1 = (10,0)`, `d0 = (0,0)`, `d1 = (0,20)` with
`rotate = false` give the uniform scale-2 matrix with zero off-diagonal
entries. -/
theorem c7_witness :
    zoom sqOracle (((0 : ℚ), (0 : ℚ)), ((10 : ℚ), (0 : ℚ)))
        (((0 : ℚ), (0 : ℚ)), ((0 : ℚ), (20 : ℚ))) false =
      some (Transform.mk ((2, 0), (0, 2)) (0, 0)) ∧
    (Transform.mk (((2 : ℚ), (0 : ℚ)), ((0 : ℚ), (2 : ℚ))) ((0 : ℚ), (0 : ℚ))).A.1.2 = 0 ∧
    (Transform.mk (((2 : ℚ), (0 : ℚ)), ((0 : ℚ), (2 : ℚ))) ((0 : ℚ), (0 : ℚ))).A.2.1 = 0 ∧
    (Transform.mk (((2 : ℚ), (0 : ℚ)), ((0 : ℚ), (2 : ℚ))) ((0 : ℚ), (0 : ℚ))).A.1.1 =
      (Transform.mk (((2 : ℚ), (0 : ℚ)), ((0 : ℚ), (2 : ℚ))) ((0 : ℚ), (0 : ℚ))).A.2.2 ∧
    0 ≤ (Transform.mk (((2 : ℚ), (0 : ℚ)), ((0 : ℚ), (2 : ℚ))) ((0 : ℚ), (0 : ℚ))).A.1.1 ∧
    (Transform.mk (((2 : ℚ), (0 : ℚ)), ((0 : ℚ), (2 : ℚ))) ((0 : ℚ), (0 : ℚ))).A.1.1 *
        (Transform.mk (((2 : ℚ), (0 : ℚ)), ((0 : ℚ), (2 : ℚ))) ((0 : ℚ), (0 : ℚ))).A.1.1 *
        dot (minus ((10 : ℚ), (0 : ℚ)) ((0 : ℚ), (0 : ℚ)))
          (minus ((10 : ℚ), (0 : ℚ)) ((0 : ℚ), (0 : ℚ))) =
      dot (minus ((0 : ℚ), (20 : ℚ)) ((0 : ℚ), (0 : ℚ)))
        (minus ((0 : ℚ), (20 : ℚ)) ((0 : ℚ), (0 : ℚ))) := by
  have h := c7_justscale_uniform sqOracle ((0 : ℚ), (0 : ℚ)) ((10 : ℚ), (0 : ℚ))
    ((0 : ℚ), (0 : ℚ)) ((0 : ℚ), (20 : ℚ))
    (by norm_num [minus, Prod.ext_iff])
    (by norm_num [sqOracle, dot, minus])
    (by norm_num [sqOracle, dot, minus])
    (by norm_num [sqOracle, dot, minus])
    (by norm_num [sqOracle, dot, minus])
  have hz : zoom sqOracle (((0 : ℚ), (0 : ℚ)), ((10 : ℚ), (0 : ℚ)))
      (((0 : ℚ), (0 : ℚ)), ((0 : ℚ), (20 : ℚ))) false =
      some (Transform.mk ((2, 0), (0, 2)) (0, 0)) := by
    rw [h.1]
    norm_num [sqOracle, rotate, dot, minus, apply, vcadd, scmult, Prod.ext_iff]
  obtain ⟨h1, h2, h3, h4, h5⟩ := h.2 _ hz
  exact ⟨hz, h1, h2, h3, h4, h5⟩

/-- C4: on a degenerate gesture (both source contacts at the same point,
so the source vector is zero) the rotate-path resolver divides by zero;
the embedding records the resulting NaN propagation as `none`, so there
is no defined fallback transform. -/
theorem c4_degenerate_propagates (sq : ℚ → ℚ) (p : Vec) (d : PointPair) :
    zoom sq (p, p) d true = none := by
  simp [zoom, rotscale, minus, dot]

/-- The exterior product of a vector with itself vanishes. -/
lemma wedge_self (v : Vec) : wedge v v = 0 := by
  simp only [wedge]
  ring

/-- The matrix `rotscale` produces is in similarity form: equal diagonal
entries, opposite off-diagonal entries. -/
lemma rotscale_sim (a b : Vec) (M : Mat) (h : rotscale a b = some M) :
    M.1.1 = M.2.2 ∧ M.1.2 = -M.2.1 := by
  unfold rotscale at h
  by_cases h0 : dot a a = 0
  · rw [if_pos h0] at h
    simp at h
  · rw [if_neg h0] at h
    obtain rfl : M = _ := (Option.some.injEq _ _).mp h.symm
    exact ⟨rfl, (neg_neg _).symm⟩

/-- The matrix `justscale` produces is in similarity form. -/
lemma justscale_sim (sq : ℚ → ℚ) (a b : Vec) (M : Mat)
    (h : justscale sq a b = some M) : M.1.1 = M.2.2 ∧ M.1.2 = -M.2.1 := by
  unfold justscale at h
  by_cases h0 : sq (dot a a) = 0
  · rw [if_pos h0] at h
    simp at h
  · rw [if_neg h0] at h
    obtain rfl : M = _ := (Option.some.injEq _ _).mp h.symm
    exact ⟨rfl, (neg_neg _).symm⟩

/-- Every matrix the resolver returns is in similarity form. -/
lemma zoom_sim (sq : ℚ → ℚ) (s d : PointPair) (r : Bool) (T : Transform)
    (h : zoom sq s d r = some T) : T.A.1.1 = T.A.2.2 ∧ T.A.1.2 = -T.A.2.1 := by
  cases r
  · have h2 : (justscale sq (minus s.2 s.1) (minus d.2 d.1)).map
        (fun rs => Transform.mk rs (minus d.1 (apply rs s.1))) = some T := h
    rcases hj : justscale sq (minus s.2 s.1) (minus d.2 d.1) with _ | M
    · rw [hj] at h2
      simp at h2
    · rw [hj] at h2
      simp only [Option.map_some', Option.some.injEq] at h2
      rw [← h2]
      exact justscale_sim _ _ _ _ hj
  · have h2 : (rotscale (minus s.2 s.1) (minus d.2 d.1)).map
        (fun rs => Transform.mk rs (minus d.1 (apply rs s.1))) = some T := h
    rcases hj : rotscale (minus s.2 s.1) (minus d.2 d.1) with _ | M
    · rw [hj] at h2
      simp at h2
    · rw [hj] at h2
      simp only [Option.map_some', Option.some.injEq] at h2
      rw [← h2]
      exact rotscale_sim _ _ _ hj

/-- Similarity form is closed under the source's matrix product, which is
why every reachable transform has equal diagonal entries. -/
lemma mult_sim (A B : Mat) (hA1 : A.1.1 = A.2.2) (hA2 : A.1.2 = -A.2.1)
    (hB1 : B.1.1 = B.2.2) (hB2 : B.1.2 = -B.2.1) :
    (mult A B).1.1 = (mult A B).2.2 ∧ (mult A B).1.2 = -(mult A B).2.1 := by
  obtain ⟨⟨a1, a2⟩, a3, a4⟩ := A
  obtain ⟨⟨b1, b2⟩, b3, b4⟩ := B
  dsimp only at hA1 hA2 hB1 hB2
  subst hA1 hA2 hB1 hB2
  simp only [mult, apply, vcadd, scmult]
  constructor <;> ring

/-- Cascading a pure-translation delta over a transform keeps its matrix
and shifts its translation. -/
lemma cascade_translate (t : Vec) (U : Transform) :
    cascade (Transform.mk ((1, 0), (0, 1)) t) U =
      Transform.mk U.A (vcadd U.b t) := by
  obtain ⟨⟨⟨x1, x2⟩, x3, x4⟩, y1, y2⟩ := U
  simp only [cascade, mult, apply, vcadd, scmult, Transform.mk.injEq, Prod.mk.injEq]
  refine ⟨⟨⟨?_, ?_⟩, ?_, ?_⟩, ?_, ?_⟩ <;> ring

/-- C5: while the reset animation runs, both touch handlers ignore every
event: the session state is returned untouched (so nothing is captured,
mutated or repainted). -/
theorem c5_animation_blocks_touch (env : Env) (cfg : Config)
    (touches : Option (List Touch)) (st : ZoomState)
    (h : st.isAnimationRunning = true) :
    handleZoom env cfg touches st = some st ∧
    handleTouchStart env cfg touches st = st := by
  constructor <;> simp [handleZoom, handleTouchStart, h]

/-- Witness for C5: a concrete animating state swallows a touch event. -/
theorem c5_witness :
    handleZoom env0 defaultConfig none { st0 with isAnimationRunning := true } =
      some { st0 with isAnimationRunning := true } ∧
    handleTouchStart env0 defaultConfig none { st0 with isAnimationRunning := true } =
      { st0 with isAnimationRunning := true } :=
  c5_animation_blocks_touch env0 defaultConfig none _ rfl

/-- C6 (amended): with `minScale` configured to a nonzero value and a
frame scheduler present, a preview whose composed transform has both
diagonal entries at or below `minScale` is rejected: nothing is
displayed or repainted, the currently displayed transform is committed,
and an animated reset toward the identity resting transform is
triggered. -/
theorem c6_minScale_snapback (env : Env) (cfg : Config) (st : ZoomState) (m : ℚ)
    (hmin : cfg.minScale = some m) (hm : m ≠ 0) (hraf : env.hasRAF = true)
    (az : Transform)
    (hz : zoom env.sq st.srcCoords st.destCoords cfg.rotate = some az)
    (h1 : (cascade az st.activeZoom).A.1.1 ≤ m)
    (h2 : (cascade az st.activeZoom).A.2.2 ≤ m) :
    previewZoom env cfg st =
      some { st with activeZoom := st.resultantZoom, isAnimationRunning := true,
                     animTarget := identity } := by
  have hfire : minFires cfg (cascade az st.activeZoom) = true := by
    simp [minFires, truthy, hmin, hm, h1, h2]
  have htgt : ∀ s2 : ZoomState, resetTarget env cfg true s2 = identity := by
    intro s2
    rcases htr : truthy cfg.maxScale with _ | m2 <;> simp [resetTarget, htr]
  simp only [previewZoom, hz, Option.map_some']
  simp [checkPan, hfire, reset, hraf, htgt, finalize]

/-- C3 (amended): with `maxScale` configured to a nonzero value (and no
`minScale` or boundary clamping), (a) a preview whose composed transform
has both diagonal entries above `maxScale` is rejected with the state
wholly unchanged — no reset, no repaint; (b) for a similarity-form
active transform the displayed diagonal entries never exceed `maxScale`
after a preview unless they already did; (c) a pure single-finger pan
over an in-range active transform is accepted and updates only the
translation. -/
theorem c3_maxScale_ceiling (env : Env) (cfg : Config) (st : ZoomState) (m : ℚ)
    (hmax : cfg.maxScale = some m) (hm : m ≠ 0)
    (hmin : cfg.minScale = none) (hb : cfg.boundaries = false) :
    (∀ az : Transform, zoom env.sq st.srcCoords st.destCoords cfg.rotate = some az →
      m < (cascade az st.activeZoom).A.1.1 → m < (cascade az st.activeZoom).A.2.2 →
      previewZoom env cfg st = some st) ∧
    (st.activeZoom.A.1.1 = st.activeZoom.A.2.2 →
     st.activeZoom.A.1.2 = -st.activeZoom.A.2.1 →
     ∀ st2, previewZoom env cfg st = some st2 →
       st2.resultantZoom = st.resultantZoom ∨
       (st2.resultantZoom.A.1.1 ≤ m ∧ st2.resultantZoom.A.2.2 ≤ m)) ∧
    (∀ p q : Vec, st.srcCoords = (p, vcadd p (1, 1)) →
      st.destCoords = (q, vcadd q (1, 1)) → cfg.rotate = true →
      ¬(m < st.activeZoom.A.1.1 ∧ m < st.activeZoom.A.2.2) →
      previewZoom env cfg st =
        some (setZoom (Transform.mk st.activeZoom.A
          (vcadd st.activeZoom.b (minus q p))) st)) := by
  refine ⟨?_, ?_, ?_⟩
  · intro az hz hgt1 hgt2
    have hmaxf : maxFires cfg (cascade az st.activeZoom) = true := by
      simp [maxFires, truthy, hmax, hm, hgt1, hgt2]
    have hminf : minFires cfg (cascade az st.activeZoom) = false := by
      simp [minFires, truthy, hmin]
    simp [previewZoom, hz, checkPan, hmaxf, hminf]
  · intro hs1 hs2 st2 hp
    rcases hzo : zoom env.sq st.srcCoords st.destCoords cfg.rotate with _ | az
    · simp [previewZoom, hzo] at hp
    · simp only [previewZoom, hzo, Option.map_some', Option.some.injEq] at hp
      have hsim := zoom_sim env.sq st.srcCoords st.destCoords cfg.rotate az hzo
      have hrsim := mult_sim az.A st.activeZoom.A hsim.1 hsim.2 hs1 hs2
      have hdiag : (cascade az st.activeZoom).A.1.1 =
          (cascade az st.activeZoom).A.2.2 := by
        simpa [cascade] using hrsim.1
      have hminf : minFires cfg (cascade az st.activeZoom) = false := by
        simp [minFires, truthy, hmin]
      by_cases hmf : maxFires cfg (cascade az st.activeZoom) = true
      · left
        rw [← hp]
        simp [checkPan, hminf, hmf]
      · right
        have hmf' : maxFires cfg (cascade az st.activeZoom) = false := by
          simpa using hmf
        have hnotlt : ¬(m < (cascade az st.activeZoom).A.1.1 ∧
            m < (cascade az st.activeZoom).A.2.2) := by
          intro hcon
          exact hmf (by simp [maxFires, truthy, hmax, hm, hcon.1, hcon.2])
        have heq : st2 = setZoom (checkBoundaries env cfg (cascade az st.activeZoom)) st := by
          rw [← hp]
          simp [checkPan, hminf, hmf']
        have hres : st2.resultantZoom = cascade az st.activeZoom := by
          rw [heq]
          simp [setZoom, repaint, checkBoundaries, hb]
        rw [hres]
        rcases not_and_or.mp hnotlt with hle | hle
        · have := le_of_not_lt hle
          exact ⟨this, hdiag ▸ this⟩
        · have := le_of_not_lt hle
          exact ⟨hdiag.symm ▸ this, this⟩
  · intro p q hsrc hdest hrot hnot
    have hzp : zoom env.sq st.srcCoords st.destCoords cfg.rotate =
        some (Transform.mk ((1, 0), (0, 1)) (minus q p)) := by
      rw [hsrc, hdest, hrot]
      obtain ⟨p1, p2⟩ := p
      obtain ⟨q1, q2⟩ := q
      have hcond : dot (minus (vcadd (p1, p2) (1, 1)) (p1, p2))
          (minus (vcadd (p1, p2) (1, 1)) (p1, p2)) ≠ 0 := by
        simp only [dot, minus, vcadd]
        ring_nf
        norm_num
      simp only [zoom, rotscale]
      rw [if_neg hcond]
      simp only [Option.map_some', Option.some.injEq, Transform.mk.injEq,
        rotate, dot, wedge, minus, vcadd, apply, scmult, Prod.mk.injEq]
      norm_num
    have hcas : cascade (Transform.mk ((1, 0), (0, 1)) (minus q p)) st.activeZoom =
        Transform.mk st.activeZoom.A (vcadd st.activeZoom.b (minus q p)) :=
      cascade_translate _ _
    have hminf : minFires cfg
        (Transform.mk st.activeZoom.A (vcadd st.activeZoom.b (minus q p))) = false := by
      simp [minFires, truthy, hmin]
    have hmaxf : maxFires cfg
        (Transform.mk st.activeZoom.A (vcadd st.activeZoom.b (minus q p))) = false := by
      simp only [maxFires, truthy, hmax]
      rw [if_neg hm]
      exact decide_eq_false hnot
    simp only [previewZoom, hzp, Option.map_some', hcas]
    simp [checkPan, hminf, hmaxf, checkBoundaries, hb]

/-- C10: when the destination pair equals the source pair (contacts did
not move) and the two contacts are distinct, the rotate-path resolver
returns exactly the identity transform, which fixes every point and is
a unit for composition; consequently under the default configuration a
no-motion preview displays exactly the active transform again. -/
theorem c10_identity_delta (sq : ℚ → ℚ) (s0 s1 : Vec) (h : s0 ≠ s1) :
    zoom sq (s0, s1) (s0, s1) true = some identity ∧
    (∀ p : Vec, applyT identity p = p) ∧
    (∀ Z : Transform, cascade identity Z = Z) ∧
    (∀ (env : Env) (cfg : Config) (st : ZoomState), env.sq = sq →
      cfg.rotate = true → cfg.minScale = none → cfg.maxScale = none →
      cfg.boundaries = false → st.srcCoords = (s0, s1) → st.destCoords = (s0, s1) →
      previewZoom env cfg st = some (setZoom st.activeZoom st)) := by
  have hminus : minus s1 s0 ≠ ((0 : ℚ), (0 : ℚ)) := by
    intro h0
    apply h
    obtain ⟨x0, y0⟩ := s0
    obtain ⟨x1, y1⟩ := s1
    simp only [minus, Prod.mk.injEq] at h0
    simp only [Prod.mk.injEq]
    constructor <;> linarith [h0.1, h0.2]
  have ha := dot_self_ne_zero _ hminus
  have hz : zoom sq (s0, s1) (s0, s1) true = some identity := by
    simp only [zoom, rotscale]
    rw [if_neg ha]
    simp only [Option.map_some', Option.some.injEq]
    obtain ⟨x0, y0⟩ := s0
    obtain ⟨x1, y1⟩ := s1
    simp only [dot, wedge, minus] at ha ⊢
    simp only [rotate, identity, apply, vcadd, scmult, Transform.mk.injEq,
      Prod.mk.injEq]
    have hw : (x1 - x0) * (y1 - y0) - (y1 - y0) * (x1 - x0) = 0 := by ring
    rw [hw, zero_div, div_self ha]
    norm_num
  refine ⟨hz, ?_, cascade_identity_left, ?_⟩
  · intro p
    obtain ⟨p1, p2⟩ := p
    simp only [applyT, identity, apply, vcadd, scmult, Prod.mk.injEq]
    constructor <;> ring
  · intro env cfg st hsq hrot hmin hmax hb hsrc hdest
    have hz2 : zoom env.sq st.srcCoords st.destCoords cfg.rotate = some identity := by
      rw [hsq, hrot, hsrc, hdest]
      exact hz
    have hminf : minFires cfg st.activeZoom = false := by
      simp [minFires, truthy, hmin]
    have hmaxf : maxFires cfg st.activeZoom = false := by
      simp [maxFires, truthy, hmax]
    simp only [previewZoom, hz2, Option.map_some']
    simp [checkPan, checkBoundaries, hb, cascade_identity_left, hminf, hmaxf]

/-- Witness for C10 at distinct contacts `(1,2)`, `(3,4)`. -/
theorem c10_witness :
    zoom sqOracle (((1 : ℚ), (2 : ℚ)), ((3 : ℚ), (4 : ℚ)))
        (((1 : ℚ), (2 : ℚ)), ((3 : ℚ), (4 : ℚ))) true = some identity ∧
    applyT identity ((5 : ℚ), (7 : ℚ)) = ((5 : ℚ), (7 : ℚ)) ∧
    cascade identity (Transform.mk ((2, 0), (0, 2)) (1, 1)) =
      Transform.mk ((2, 0), (0, 2)) (1, 1) ∧
    previewZoom env0 defaultConfig stC10 = some (setZoom stC10.activeZoom stC10) := by
  have h := c10_identity_delta sqOracle ((1 : ℚ), (2 : ℚ)) ((3 : ℚ), (4 : ℚ))
    (by norm_num [Prod.ext_iff])
  exact ⟨h.1, h.2.1 _, h.2.2.1 _,
    h.2.2.2 env0 defaultConfig stC10 rfl rfl rfl rfl rfl rfl rfl⟩

/-- Counterexample to C3 as stated: with `maxScale` configured as `0`
(falsy in JS, so the guard `if (maxScale && ...)` never fires), a
proposed preview whose diagonal entries `2, 2` both exceed the
configured `maxScale` is nevertheless accepted and displayed. -/
theorem c3_zero_maxScale_cex :
    cfgZ3.maxScale = some 0 ∧
    previewZoom env0 cfgZ3 stZ3 = some outZ3 ∧
    (0 : ℚ) < outZ3.resultantZoom.A.1.1 ∧ (0 : ℚ) < outZ3.resultantZoom.A.2.2 ∧
    outZ3.resultantZoom ≠ stZ3.resultantZoom ∧
    outZ3.painted ≠ stZ3.painted := by
  refine ⟨rfl, ?_, ?_, ?_, ?_, ?_⟩
  · norm_num [previewZoom, zoom, rotscale, dot, wedge, minus, apply, vcadd,
      scmult, rotate, cascade, mult, checkPan, minFires, maxFires, truthy,
      checkBoundaries, setZoom, repaint, env0, cfgZ3, stZ3, st0, outZ3,
      identity, sqOracle, Transform.mk.injEq, Prod.ext_iff]
  · norm_num [outZ3, setZoom, repaint]
  · norm_num [outZ3, setZoom, repaint]
  · norm_num [outZ3, setZoom, repaint, stZ3, st0, identity, Transform.mk.injEq,
      Prod.ext_iff]
  · norm_num [outZ3, setZoom, repaint, stZ3, st0]

/-- Counterexample to C6 as stated: with `minScale` configured as `0`
(falsy in JS, so the guard `if (minScale)` never fires), a proposed
preview whose diagonal entries `-1, -1` are both at or below the
configured `minScale` is neither rejected nor snapped back: it is
displayed, nothing is finalized and no animation starts. -/
theorem c6_zero_minScale_cex :
    cfgZ6.minScale = some 0 ∧
    previewZoom env0 cfgZ6 stZ6 = some outZ6 ∧
    outZ6.resultantZoom.A.1.1 ≤ 0 ∧ outZ6.resultantZoom.A.2.2 ≤ 0 ∧
    outZ6.resultantZoom ≠ stZ6.resultantZoom ∧
    outZ6.isAnimationRunning = false ∧
    outZ6.activeZoom = stZ6.activeZoom := by
  refine ⟨rfl, ?_, ?_, ?_, ?_, rfl, rfl⟩
  · norm_num [previewZoom, zoom, rotscale, dot, wedge, minus, apply, vcadd,
      scmult, rotate, cascade, mult, checkPan, minFires, maxFires, truthy,
      checkBoundaries, setZoom, repaint, env0, cfgZ6, stZ6, st0, outZ6,
      identity, sqOracle, Transform.mk.injEq, Prod.ext_iff]
  · norm_num [outZ6, setZoom, repaint]
  · norm_num [outZ6, setZoom, repaint]
  · norm_num [outZ6, setZoom, repaint, stZ6, st0, identity, Transform.mk.injEq,
      Prod.ext_iff]

/-- Witness for C3 (amended) at `maxScale = 2`: a pinch to scale 4 is
rejected leaving the state untouched, and a single-finger pan over an
in-range active transform updates only the translation. -/
theorem c3_witness :
    previewZoom env0 cfgC3 stC3 = some stC3 ∧
    previewZoom env0 cfgC3 stC3pan =
      some (setZoom (Transform.mk stC3pan.activeZoom.A
        (vcadd stC3pan.activeZoom.b (minus ((5 : ℚ), (3 : ℚ)) ((1 : ℚ), (1 : ℚ)))))
        stC3pan) := by
  have hthm1 := c3_maxScale_ceiling env0 cfgC3 stC3 2 rfl (by norm_num) rfl rfl
  have hthm2 := c3_maxScale_ceiling env0 cfgC3 stC3pan 2 rfl (by norm_num) rfl rfl
  refine ⟨?_, ?_⟩
  · exact hthm1.1 (Transform.mk ((4, 0), (0, 4)) (0, 0))
      (by norm_num [zoom, rotscale, dot, wedge, minus, rotate, apply, vcadd,
        scmult, env0, stC3, st0, cfgC3, sqOracle, Transform.mk.injEq, Prod.ext_iff])
      (by norm_num [cascade, mult, apply, vcadd, scmult, stC3, st0, identity])
      (by norm_num [cascade, mult, apply, vcadd, scmult, stC3, st0, identity])
  · exact hthm2.2.2 ((1 : ℚ), (1 : ℚ)) ((5 : ℚ), (3 : ℚ))
      (by norm_num [stC3pan, st0, vcadd, Prod.ext_iff])
      (by norm_num [stC3pan, st0, vcadd, Prod.ext_iff])
      rfl
      (by norm_num [stC3pan, st0, identity])

/-- Witness for C6 (amended) at `minScale = 1/2`: a pinch to scale 1/2
is rejected, the displayed transform is committed and the reset
animation starts toward the identity. -/
theorem c6_witness :
    cfgC6.minScale = some (1 / 2) ∧
    previewZoom env0 cfgC6 stC6 =
      some { stC6 with activeZoom := stC6.resultantZoom, isAnimationRunning := true,
                       animTarget := identity } := by
  refine ⟨rfl, ?_⟩
  exact c6_minScale_snapback env0 cfgC6 stC6 (1 / 2) rfl (by norm_num) rfl
    (Transform.mk ((1 / 2, 0), (0, 1 / 2)) (0, 0))
    (by norm_num [zoom, rotscale, dot, wedge, minus, rotate, apply, vcadd,
      scmult, env0, stC6, st0, cfgC6, sqOracle, Transform.mk.injEq, Prod.ext_iff])
    (by norm_num [cascade, mult, apply, vcadd, scmult, stC6, st0, identity])
    (by norm_num [cascade, mult, apply, vcadd, scmult, stC6, st0, identity])

/-- C9 (amended): the earlier version's dispatch ignores events with
more than two contacts — no handler runs, no state changes; the current
version instead treats a differing contact count above two as a
contact-count change: it records the new count, finalizes, and
recaptures both coordinate pairs from the first two contacts, without
previewing or repainting. -/
theorem c9_three_contacts :
    (∀ (σ : Type) (h1 h2 : σ → σ × Bool) (n : ℕ) (s : σ),
      2 < n → dispatchOld h1 h2 n s = (s, false)) ∧
    (∀ (env : Env) (cfg : Config) (t : List Touch) (st : ZoomState),
      st.isAnimationRunning = false → 2 < t.length → t.length ≠ st.curTouch →
      handleZoom env cfg (some t) st =
        some (setSrcAndDest env t (finalize { st with curTouch := t.length }))) := by
  constructor
  · intro σ h1 h2 n s hn
    unfold dispatchOld
    rw [if_neg (by omega), if_neg (by omega)]
  · intro env cfg t st hanim hlen hne
    have h0 : t.length ≠ 0 := by omega
    simp [handleZoom, hanim, hne, h0]

/-- Counterexample to C9 as stated: in the current version a
three-contact event during a two-contact pinch is not ignored — it
updates the recorded contact count, finalizes the uncommitted preview
into the active transform and recaptures coordinates. -/
theorem c9_cex :
    t3.length = 3 ∧ stZ9.curTouch = 2 ∧
    handleZoom env0 defaultConfig (some t3) stZ9 = some outZ9 ∧
    outZ9.curTouch ≠ stZ9.curTouch ∧
    outZ9.activeZoom ≠ stZ9.activeZoom ∧
    outZ9.srcCoords ≠ stZ9.srcCoords := by
  refine ⟨rfl, rfl, ?_, ?_, ?_, ?_⟩
  · norm_num [handleZoom, finalize, setSrcAndDest, getCoords, getCoordsDouble,
      getCoordsSingle, env0, t3, stZ9, st0, outZ9, identity, Prod.ext_iff]
  · norm_num [outZ9, stZ9, st0]
  · norm_num [outZ9, stZ9, st0, identity, Transform.mk.injEq, Prod.ext_iff]
  · norm_num [outZ9, stZ9, st0, Prod.ext_iff]

/-- Witness for C9 (amended) at a concrete three-contact event. -/
theorem c9_witness :
    dispatchOld (fun s => (s + 1, true)) (fun s => (s + 2, true)) 3 (0 : ℕ) =
      (0, false) ∧
    handleZoom env0 defaultConfig (some t3) stZ9 =
      some (setSrcAndDest env0 t3 (finalize { stZ9 with curTouch := t3.length })) := by
  refine ⟨c9_three_contacts.1 ℕ _ _ 3 0 (by norm_num), ?_⟩
  exact c9_three_contacts.2 env0 defaultConfig t3 stZ9 rfl (by norm_num [t3])
    (by norm_num [t3, stZ9, st0])

end ZoomJS
